import Mathlib

/-!
Verification of the semantic core of a SIEVE-IR circuit toolkit
(streaming validator, gate-set reduction engine, output-wire renumbering),
shallowly embedded from the Rust sources.

Namespaces:
* `ZkV` — the streaming validator (`consumers/validator.rs`).
* `ZkG` — the gate IR and output-wire renumbering (`structs/gates.rs`).
* `ZkE` — the gate-set reduction engine (`consumers/exp_definable.rs`).
-/

namespace ZkV

/-- Little-endian byte decoding, as `BigUint::from_bytes_le`. -/
def from_bytes_le (v : List Nat) : Nat :=
  v.foldr (fun b acc => b + 256 * acc) 0

/-- `str::trim` on both ends (ASCII whitespace suffices for the strings involved). -/
def trimChars (s : List Char) : List Char :=
  ((s.dropWhile Char.isWhitespace).reverse.dropWhile Char.isWhitespace).reverse

/-- Suffixes of `s` obtained by consuming a nonempty prefix of decimal digits
(the `\d+` atom of the version regex). -/
def digit_suffixes : List Char → List (List Char)
  | [] => []
  | c :: cs => if c.isDigit then cs :: digit_suffixes cs else []

/-- One step of the unescaped `.` atom of `VERSION_REGEX`: consumes any single
character other than a newline. -/
def dot_any_step : List Char → Option (List Char)
  | [] => none
  | c :: cs => if c = '\n' then none else some cs

/-- One step of a literal `\.` atom: consumes exactly a `'.'` character. -/
def dot_lit_step : List Char → Option (List Char)
  | [] => none
  | c :: cs => if c = '.' then some cs else none

/-- Matching of `VERSION_REGEX = "^\d+.\d+.\d+$"` exactly as the source writes
it: the two dots are *unescaped*, so each matches any character but `'\n'`. -/
def version_regex_match (s : List Char) : Bool :=
  (digit_suffixes s).any fun s1 =>
    match dot_any_step s1 with
    | none => false
    | some s2 =>
      (digit_suffixes s2).any fun s3 =>
        match dot_any_step s3 with
        | none => false
        | some s4 => (digit_suffixes s4).any List.isEmpty

/-- Matching of the pattern the specification states, `^\d+\.\d+\.\d+$`:
three nonempty digit groups separated by *literal* dots. -/
def spec_version_match (s : List Char) : Bool :=
  (digit_suffixes s).any fun s1 =>
    match dot_lit_step s1 with
    | none => false
    | some s2 =>
      (digit_suffixes s2).any fun s3 =>
        match dot_lit_step s3 with
        | none => false
        | some s4 => (digit_suffixes s4).any List.isEmpty

/-- Identifies which value a field-membership check was applied to; in the
source this is the closure producing the `name()` part of the message. -/
inductive ValueDesc where
  | instanceValue (v : List Nat)
  | witnessValue (v : List Nat)
  | constantGate
  | addConstantOf (out : Nat)
  | mulConstantOf (out : Nat)
deriving DecidableEq

/-- One diagnostic entry.  The source stores formatted strings; each
constructor here corresponds to exactly one `violate(format!(...))` call site
of `validator.rs`, carrying the interpolated data. -/
inductive Violation where
  | charInconsistent
  | degreeInconsistent
  | profileInconsistent
  | versionInconsistent
  | charNotGreaterOne
  | degreeNotOne
  | booleanCharNotTwo
  | badProfile
  | badVersion
  | unexpectedWitnessMsg
  | valueEmpty (d : ValueDesc)
  | valueNotInField (d : ValueDesc) (n : Nat) (c : Nat)
  | noInstanceValue (w : Nat)
  | noWitnessValue (w : Nat)
  | freeUndefined (w : Nat)
  | usedNotAssigned (w : Nat)
  | ssa (w : Nat)
  | arithmeticInBoolean (g : String)
  | booleanInArithmetic (g : String)
  | tooManyInstance (n : Nat)
  | tooManyWitness (n : Nat)
deriving DecidableEq

structure Header where
  field_characteristic : List Nat
  field_degree : Nat
  profile : String
  version : String
deriving DecidableEq

structure Instance where
  header : Header
  common_inputs : List (List Nat)
deriving DecidableEq

structure Witness where
  header : Header
  short_witness : List (List Nat)
deriving DecidableEq

/-- The gate variants of the IR revision `validator.rs` belongs to (no field
ids).  `Function` and `Call` are `unimplemented!()` in `ingest_gate`, and their
payloads are never inspected, so they carry none here. -/
inductive Gate where
  | Constant (out : Nat) (value : List Nat)
  | AssertZero (inp : Nat)
  | Copy (out inp : Nat)
  | Add (out left right : Nat)
  | Mul (out left right : Nat)
  | AddConstant (out inp : Nat) (constant : List Nat)
  | MulConstant (out inp : Nat) (constant : List Nat)
  | And (out left right : Nat)
  | Xor (out left right : Nat)
  | Not (out inp : Nat)
  | Instance (out : Nat)
  | Witness (out : Nat)
  | Free (first : Nat) (last : Option Nat)
  | Function
  | Call
deriving DecidableEq

structure Validator where
  as_prover : Bool := false
  instance_queue_len : Nat := 0
  witness_queue_len : Nat := 0
  live_wires : Finset Nat := ∅
  got_header : Bool := false
  header_profile : String := ""
  header_version : String := ""
  is_arithmetic_circuit : Bool := false
  field_characteristic : Nat := 0
  field_degree : Nat := 0
  field_bytelen : Nat := 0
  violations : List Violation := []

namespace Validator

def new_as_verifier : Validator := {}

def new_as_prover : Validator := { as_prover := true }

def violate (v : Validator) (x : Violation) : Validator :=
  { v with violations := v.violations ++ [x] }

def is_defined (v : Validator) (id : Nat) : Bool :=
  id ∈ v.live_wires

def declare (v : Validator) (id : Nat) : Validator :=
  { v with live_wires := insert id v.live_wires }

def remove (v : Validator) (id : Nat) : Validator :=
  if id ∈ v.live_wires then { v with live_wires := v.live_wires.erase id }
  else v.violate (.freeUndefined id)

def ensure_defined_and_set (v : Validator) (id : Nat) : Validator :=
  if v.is_defined id then v
  else
    let v := if v.as_prover then v.violate (.usedNotAssigned id) else v
    v.declare id

def ensure_undefined_and_set (v : Validator) (id : Nat) : Validator :=
  let v := if v.is_defined id then v.violate (.ssa id) else v
  v.declare id

def ensure_value_in_field (v : Validator) (value : List Nat) (d : ValueDesc) :
    Validator :=
  let v := if value.length = 0 then v.violate (.valueEmpty d) else v
  let int := from_bytes_le value
  if v.field_characteristic ≤ int then
    v.violate (.valueNotInField d int v.field_characteristic)
  else v

def ensure_arithmetic (v : Validator) (gate_name : String) : Validator :=
  if !v.is_arithmetic_circuit then v.violate (.arithmeticInBoolean gate_name)
  else v

def ensure_boolean (v : Validator) (gate_name : String) : Validator :=
  if v.is_arithmetic_circuit then v.violate (.booleanInArithmetic gate_name)
  else v

/-- The body of the `Free` loop: for each wire of the inclusive range,
`ensure_defined_and_set` then `remove`. -/
def free_loop (v : Validator) : List Nat → Validator
  | [] => v
  | id :: ids => free_loop ((v.ensure_defined_and_set id).remove id) ids

/-- `ingest_header`, repeat-header branch: each mismatch with the snapshot is
one violation. -/
def header_check_consistent (v : Validator) (header : Header) : Validator :=
  let v :=
    if v.field_characteristic ≠ from_bytes_le header.field_characteristic
    then v.violate .charInconsistent else v
  let v := if v.field_degree ≠ header.field_degree
    then v.violate .degreeInconsistent else v
  let v := if v.header_profile ≠ header.profile
    then v.violate .profileInconsistent else v
  let v := if v.header_version ≠ header.version
    then v.violate .versionInconsistent else v
  v

/-- `ingest_header`, first-header branch: snapshot and check the
characteristic. -/
def header_check_characteristic (v : Validator) (header : Header) : Validator :=
  let v := { v with got_header := true,
                    field_characteristic :=
                      from_bytes_le header.field_characteristic }
  if v.field_characteristic ≤ 1 then v.violate .charNotGreaterOne else v

/-- `ingest_header`, first-header branch: snapshot and check the degree. -/
def header_check_degree (v : Validator) (header : Header) : Validator :=
  let v := { v with field_bytelen := header.field_characteristic.length,
                    field_degree := header.field_degree }
  if v.field_degree ≠ 1 then v.violate .degreeNotOne else v

/-- `ingest_header`, first-header branch: snapshot and check the profile. -/
def header_check_profile (v : Validator) (header : Header) : Validator :=
  let v := { v with header_profile := header.profile }
  match String.mk (trimChars header.profile.data) with
  | "circ_arithmetic_simple" => { v with is_arithmetic_circuit := true }
  | "circ_boolean_simple" =>
    let v := { v with is_arithmetic_circuit := false }
    if v.field_characteristic ≠ 2 then v.violate .booleanCharNotTwo else v
  | _ => v.violate .badProfile

/-- `ingest_header`, first-header branch: check the version format and
snapshot the version. -/
def header_check_version (v : Validator) (header : Header) : Validator :=
  let v := if !version_regex_match (trimChars header.version.data)
    then v.violate .badVersion else v
  { v with header_version := header.version }

def ingest_header (v : Validator) (header : Header) : Validator :=
  if v.got_header then header_check_consistent v header
  else
    header_check_version
      (header_check_profile
        (header_check_degree (header_check_characteristic v header) header)
        header)
      header

def ingest_instance (v : Validator) (i : Instance) : Validator :=
  let v := v.ingest_header i.header
  let v := i.common_inputs.foldl
    (fun v value => v.ensure_value_in_field value (.instanceValue value)) v
  { v with instance_queue_len := v.instance_queue_len + i.common_inputs.length }

def ingest_witness (v : Validator) (w : Witness) : Validator :=
  let v := if !v.as_prover then v.violate .unexpectedWitnessMsg else v
  let v := v.ingest_header w.header
  let v := w.short_witness.foldl
    (fun v value => v.ensure_value_in_field value (.witnessValue value)) v
  { v with witness_queue_len := v.witness_queue_len + w.short_witness.length }

/-- `ingest_gate`; `none` models the `unimplemented!()` panic on `Function`
and `Call`. -/
def ingest_gate (v : Validator) (gate : Gate) : Option Validator :=
  match gate with
  | .Constant out value =>
    let v := v.ensure_value_in_field value .constantGate
    some (v.ensure_undefined_and_set out)
  | .AssertZero inp => some (v.ensure_defined_and_set inp)
  | .Copy out inp =>
    let v := v.ensure_defined_and_set inp
    some (v.ensure_undefined_and_set out)
  | .Add out left right =>
    let v := v.ensure_arithmetic "Add"
    let v := v.ensure_defined_and_set left
    let v := v.ensure_defined_and_set right
    some (v.ensure_undefined_and_set out)
  | .Mul out left right =>
    let v := v.ensure_arithmetic "Mul"
    let v := v.ensure_defined_and_set left
    let v := v.ensure_defined_and_set right
    some (v.ensure_undefined_and_set out)
  | .AddConstant out inp constant =>
    let v := v.ensure_arithmetic "AddConstant"
    let v := v.ensure_value_in_field constant (.addConstantOf out)
    let v := v.ensure_defined_and_set inp
    some (v.ensure_undefined_and_set out)
  | .MulConstant out inp constant =>
    let v := v.ensure_arithmetic "MulConstant"
    let v := v.ensure_value_in_field constant (.mulConstantOf out)
    let v := v.ensure_defined_and_set inp
    some (v.ensure_undefined_and_set out)
  | .And out left right =>
    let v := v.ensure_boolean "And"
    let v := v.ensure_defined_and_set left
    let v := v.ensure_defined_and_set right
    some (v.ensure_undefined_and_set out)
  | .Xor out left right =>
    let v := v.ensure_boolean "Xor"
    let v := v.ensure_defined_and_set left
    let v := v.ensure_defined_and_set right
    some (v.ensure_undefined_and_set out)
  | .Not out inp =>
    let v := v.ensure_boolean "Not"
    let v := v.ensure_defined_and_set inp
    some (v.ensure_undefined_and_set out)
  | .Instance out =>
    let v := v.declare out
    some (if v.instance_queue_len > 0
      then { v with instance_queue_len := v.instance_queue_len - 1 }
      else v.violate (.noInstanceValue out))
  | .Witness out =>
    let v := v.declare out
    some (if v.as_prover then
        if v.witness_queue_len > 0
        then { v with witness_queue_len := v.witness_queue_len - 1 }
        else v.violate (.noWitnessValue out)
      else v)
  | .Free first last =>
    some (free_loop v (List.range' first (last.getD first + 1 - first)))
  | .Function => none
  | .Call => none

def ingest_gates (v : Validator) : List Gate → Option Validator
  | [] => some v
  | g :: gs => (v.ingest_gate g).bind (fun v => v.ingest_gates gs)

def ensure_all_instance_values_consumed (v : Validator) : Validator :=
  if v.instance_queue_len > 0
  then v.violate (.tooManyInstance v.instance_queue_len) else v

def ensure_all_witness_values_consumed (v : Validator) : Validator :=
  if v.as_prover ∧ v.witness_queue_len > 0
  then v.violate (.tooManyWitness v.witness_queue_len) else v

/-- `get_violations`; the live-wire leftovers only print a warning in the
source, so they contribute nothing to the returned list. -/
def get_violations (v : Validator) : List Violation :=
  let v := v.ensure_all_instance_values_consumed
  let v := v.ensure_all_witness_values_consumed
  v.violations

end Validator

namespace Validator

lemma violate_violations (v : Validator) (x : Violation) :
    (v.violate x).violations = v.violations ++ [x] := rfl

lemma violate_live (v : Validator) (x : Violation) :
    (v.violate x).live_wires = v.live_wires := rfl

lemma ensure_arithmetic_frame (v : Validator) (s : String) (out : Nat) :
    (v.ensure_arithmetic s).live_wires = v.live_wires ∧
    (v.ensure_arithmetic s).violations.count (.ssa out)
      = v.violations.count (.ssa out) := by
  unfold ensure_arithmetic
  split <;> simp [violate, List.count_append]

lemma ensure_boolean_frame (v : Validator) (s : String) (out : Nat) :
    (v.ensure_boolean s).live_wires = v.live_wires ∧
    (v.ensure_boolean s).violations.count (.ssa out)
      = v.violations.count (.ssa out) := by
  unfold ensure_boolean
  split <;> simp [violate, List.count_append]

lemma ensure_value_in_field_frame (v : Validator) (value : List Nat)
    (d : ValueDesc) (out : Nat) :
    (v.ensure_value_in_field value d).live_wires = v.live_wires ∧
    (v.ensure_value_in_field value d).violations.count (.ssa out)
      = v.violations.count (.ssa out) := by
  unfold ensure_value_in_field
  constructor <;> split_ifs <;>
    simp [violate, List.count_append, apply_ite Validator.live_wires,
      apply_ite Validator.violations, apply_ite (List.count (Violation.ssa out))]

lemma ensure_defined_and_set_frame (v : Validator) (id : Nat) (out : Nat) :
    v.live_wires ⊆ (v.ensure_defined_and_set id).live_wires ∧
    (v.ensure_defined_and_set id).violations.count (.ssa out)
      = v.violations.count (.ssa out) := by
  unfold ensure_defined_and_set
  split_ifs <;>
    simp [violate, declare, List.count_append, Finset.subset_insert]

lemma ensure_undefined_and_set_count (v : Validator) (id : Nat)
    (h : id ∈ v.live_wires) :
    (v.ensure_undefined_and_set id).violations.count (.ssa id)
      = v.violations.count (.ssa id) + 1 := by
  unfold ensure_undefined_and_set
  simp [is_defined, h, violate, declare, List.count_append]

lemma count_after_undefined (v v' : Validator) (out : Nat)
    (hs : out ∈ v'.live_wires)
    (hc : v'.violations.count (.ssa out) = v.violations.count (.ssa out)) :
    (v'.ensure_undefined_and_set out).violations.count (.ssa out)
      = v.violations.count (.ssa out) + 1 := by
  rw [ensure_undefined_and_set_count v' out hs, hc]

/-- A header-processing step extends the violation list without touching the
queues, the prover flag or the live set, and never records the
`unexpectedWitnessMsg` or the `badVersion` violation. -/
def HeaderStep (v w : Validator) : Prop :=
  w.as_prover = v.as_prover ∧ w.instance_queue_len = v.instance_queue_len ∧
  w.witness_queue_len = v.witness_queue_len ∧ w.live_wires = v.live_wires ∧
  ∃ l, w.violations = v.violations ++ l ∧
    Violation.unexpectedWitnessMsg ∉ l ∧ Violation.badVersion ∉ l

lemma HeaderStep.trans {u v w : Validator} (h1 : HeaderStep u v)
    (h2 : HeaderStep v w) : HeaderStep u w := by
  obtain ⟨a1, a2, a3, a4, l1, e1, b1, c1⟩ := h1
  obtain ⟨d1, d2, d3, d4, l2, e2, b2, c2⟩ := h2
  refine ⟨d1.trans a1, d2.trans a2, d3.trans a3, d4.trans a4,
    l1 ++ l2, ?_, ?_, ?_⟩
  · rw [e2, e1, List.append_assoc]
  · simp [List.mem_append, b1, b2]
  · simp [List.mem_append, c1, c2]

lemma hstep_refl_fields (v w : Validator) (ha : w.as_prover = v.as_prover)
    (hi : w.instance_queue_len = v.instance_queue_len)
    (hw : w.witness_queue_len = v.witness_queue_len)
    (hl : w.live_wires = v.live_wires) (he : w.violations = v.violations) :
    HeaderStep v w :=
  ⟨ha, hi, hw, hl, [], by simp [he], by simp, by simp⟩

lemma hstep_violate (w : Validator) (x : Violation)
    (hx1 : x ≠ .unexpectedWitnessMsg) (hx2 : x ≠ .badVersion) :
    HeaderStep w (w.violate x) :=
  ⟨rfl, rfl, rfl, rfl, [x], rfl, by simp [Ne.symm hx1], by simp [Ne.symm hx2]⟩

lemma hstep_ite_violate (w : Validator) (c : Prop) [Decidable c]
    (x : Violation) (hx1 : x ≠ .unexpectedWitnessMsg)
    (hx2 : x ≠ .badVersion) :
    HeaderStep w (if c then w.violate x else w) := by
  split_ifs
  · exact hstep_violate w x hx1 hx2
  · exact ⟨rfl, rfl, rfl, rfl, [], by simp, by simp, by simp⟩

lemma hstep_characteristic (v : Validator) (h : Header) :
    HeaderStep v (header_check_characteristic v h) := by
  unfold header_check_characteristic
  exact (hstep_refl_fields v _ rfl rfl rfl rfl rfl).trans
    (hstep_ite_violate _ _ _ (by simp) (by simp))

lemma hstep_degree (v : Validator) (h : Header) :
    HeaderStep v (header_check_degree v h) := by
  unfold header_check_degree
  exact (hstep_refl_fields v _ rfl rfl rfl rfl rfl).trans
    (hstep_ite_violate _ _ _ (by simp) (by simp))

lemma hstep_profile (v : Validator) (h : Header) :
    HeaderStep v (header_check_profile v h) := by
  unfold header_check_profile
  split
  · exact hstep_refl_fields v _ rfl rfl rfl rfl rfl
  · exact (hstep_refl_fields v _ rfl rfl rfl rfl rfl).trans
      (hstep_ite_violate _ _ _ (by simp) (by simp))
  · exact (hstep_refl_fields v _ rfl rfl rfl rfl rfl).trans
      (hstep_violate _ _ (by simp) (by simp))

lemma hstep_consistent (v : Validator) (h : Header) :
    HeaderStep v (header_check_consistent v h) := by
  unfold header_check_consistent
  exact (((hstep_ite_violate v _ _ (by simp) (by simp)).trans
      (hstep_ite_violate _ _ _ (by simp) (by simp))).trans
      (hstep_ite_violate _ _ _ (by simp) (by simp))).trans
    (hstep_ite_violate _ _ _ (by simp) (by simp))

lemma header_check_version_spec (v : Validator) (h : Header) :
    (header_check_version v h).as_prover = v.as_prover ∧
    (header_check_version v h).instance_queue_len = v.instance_queue_len ∧
    (header_check_version v h).witness_queue_len = v.witness_queue_len ∧
    (header_check_version v h).live_wires = v.live_wires ∧
    (header_check_version v h).violations = v.violations
      ++ (if version_regex_match (trimChars h.version.data) = false
          then [Violation.badVersion] else []) := by
  unfold header_check_version
  split_ifs with hv <;> simp_all [violate]

lemma ingest_header_step (v : Validator) (h : Header) :
    (ingest_header v h).as_prover = v.as_prover ∧
    (ingest_header v h).instance_queue_len = v.instance_queue_len ∧
    (ingest_header v h).witness_queue_len = v.witness_queue_len ∧
    (ingest_header v h).live_wires = v.live_wires ∧
    ∃ l, (ingest_header v h).violations = v.violations ++ l ∧
      Violation.unexpectedWitnessMsg ∉ l := by
  unfold ingest_header
  split
  · obtain ⟨a1, a2, a3, a4, l, e, b, -⟩ := hstep_consistent v h
    exact ⟨a1, a2, a3, a4, l, e, b⟩
  · have h3 : HeaderStep v _ :=
      ((hstep_characteristic v h).trans
        (hstep_degree (header_check_characteristic v h) h)).trans
      (hstep_profile
        (header_check_degree (header_check_characteristic v h) h) h)
    obtain ⟨a1, a2, a3, a4, l, e, b, -⟩ := h3
    obtain ⟨d1, d2, d3, d4, d5⟩ := header_check_version_spec
      (header_check_profile
        (header_check_degree (header_check_characteristic v h) h) h) h
    refine ⟨d1.trans a1, d2.trans a2, d3.trans a3, d4.trans a4,
      l ++ (if version_regex_match (trimChars h.version.data) = false
            then [Violation.badVersion] else []), ?_, ?_⟩
    · rw [d5, e, List.append_assoc]
    · simp only [List.mem_append, not_or]
      refine ⟨b, ?_⟩
      split_ifs <;> simp

end Validator

open Validator in
/-- C2 (amended): re-defining a live wire produces exactly one SSA violation
for the nine gate kinds that go through `ensure_undefined_and_set`
(`Constant`, `Copy`, `Add`, `Mul`, `AddConstant`, `MulConstant`, `And`, `Xor`,
`Not`), while `Instance` and `Witness` gates merely `declare` their output and
add no SSA violation at all. -/
theorem c2_amended (v : Validator) (out l r : Nat) (val : List Nat)
    (h : out ∈ v.live_wires) :
    ((v.ingest_gate (.Constant out val)).map
        (fun w => w.violations.count (.ssa out))
      = some (v.violations.count (.ssa out) + 1)) ∧
    ((v.ingest_gate (.Copy out l)).map
        (fun w => w.violations.count (.ssa out))
      = some (v.violations.count (.ssa out) + 1)) ∧
    ((v.ingest_gate (.Add out l r)).map
        (fun w => w.violations.count (.ssa out))
      = some (v.violations.count (.ssa out) + 1)) ∧
    ((v.ingest_gate (.Mul out l r)).map
        (fun w => w.violations.count (.ssa out))
      = some (v.violations.count (.ssa out) + 1)) ∧
    ((v.ingest_gate (.AddConstant out l val)).map
        (fun w => w.violations.count (.ssa out))
      = some (v.violations.count (.ssa out) + 1)) ∧
    ((v.ingest_gate (.MulConstant out l val)).map
        (fun w => w.violations.count (.ssa out))
      = some (v.violations.count (.ssa out) + 1)) ∧
    ((v.ingest_gate (.And out l r)).map
        (fun w => w.violations.count (.ssa out))
      = some (v.violations.count (.ssa out) + 1)) ∧
    ((v.ingest_gate (.Xor out l r)).map
        (fun w => w.violations.count (.ssa out))
      = some (v.violations.count (.ssa out) + 1)) ∧
    ((v.ingest_gate (.Not out l)).map
        (fun w => w.violations.count (.ssa out))
      = some (v.violations.count (.ssa out) + 1)) ∧
    ((v.ingest_gate (.Instance out)).map
        (fun w => w.violations.count (.ssa out))
      = some (v.violations.count (.ssa out))) ∧
    ((v.ingest_gate (.Witness out)).map
        (fun w => w.violations.count (.ssa out))
      = some (v.violations.count (.ssa out))) := by
  refine ⟨?_, ?_, ?_, ?_, ?_, ?_, ?_, ?_, ?_, ?_, ?_⟩
  · obtain ⟨hl1, hc1⟩ := ensure_value_in_field_frame v val .constantGate out
    simp only [ingest_gate, Option.map_some', Option.some.injEq]
    exact count_after_undefined _ _ _ (hl1 ▸ h) hc1
  · obtain ⟨hl1, hc1⟩ := ensure_defined_and_set_frame v l out
    simp only [ingest_gate, Option.map_some', Option.some.injEq]
    exact count_after_undefined _ _ _ (hl1 h) hc1
  · obtain ⟨hl1, hc1⟩ := ensure_arithmetic_frame v "Add" out
    obtain ⟨hl2, hc2⟩ := ensure_defined_and_set_frame (v.ensure_arithmetic "Add") l out
    obtain ⟨hl3, hc3⟩ :=
      ensure_defined_and_set_frame ((v.ensure_arithmetic "Add").ensure_defined_and_set l) r out
    simp only [ingest_gate, Option.map_some', Option.some.injEq]
    exact count_after_undefined _ _ _ (hl3 (hl2 (hl1 ▸ h)))
      ((hc3.trans hc2).trans hc1)
  · obtain ⟨hl1, hc1⟩ := ensure_arithmetic_frame v "Mul" out
    obtain ⟨hl2, hc2⟩ := ensure_defined_and_set_frame (v.ensure_arithmetic "Mul") l out
    obtain ⟨hl3, hc3⟩ :=
      ensure_defined_and_set_frame ((v.ensure_arithmetic "Mul").ensure_defined_and_set l) r out
    simp only [ingest_gate, Option.map_some', Option.some.injEq]
    exact count_after_undefined _ _ _ (hl3 (hl2 (hl1 ▸ h)))
      ((hc3.trans hc2).trans hc1)
  · obtain ⟨hl1, hc1⟩ := ensure_arithmetic_frame v "AddConstant" out
    obtain ⟨hl2, hc2⟩ :=
      ensure_value_in_field_frame (v.ensure_arithmetic "AddConstant") val (.addConstantOf out) out
    obtain ⟨hl3, hc3⟩ :=
      ensure_defined_and_set_frame
        ((v.ensure_arithmetic "AddConstant").ensure_value_in_field val (.addConstantOf out)) l out
    simp only [ingest_gate, Option.map_some', Option.some.injEq]
    exact count_after_undefined _ _ _ (hl3 (hl2 ▸ hl1 ▸ h))
      ((hc3.trans hc2).trans hc1)
  · obtain ⟨hl1, hc1⟩ := ensure_arithmetic_frame v "MulConstant" out
    obtain ⟨hl2, hc2⟩ :=
      ensure_value_in_field_frame (v.ensure_arithmetic "MulConstant") val (.mulConstantOf out) out
    obtain ⟨hl3, hc3⟩ :=
      ensure_defined_and_set_frame
        ((v.ensure_arithmetic "MulConstant").ensure_value_in_field val (.mulConstantOf out)) l out
    simp only [ingest_gate, Option.map_some', Option.some.injEq]
    exact count_after_undefined _ _ _ (hl3 (hl2 ▸ hl1 ▸ h))
      ((hc3.trans hc2).trans hc1)
  · obtain ⟨hl1, hc1⟩ := ensure_boolean_frame v "And" out
    obtain ⟨hl2, hc2⟩ := ensure_defined_and_set_frame (v.ensure_boolean "And") l out
    obtain ⟨hl3, hc3⟩ :=
      ensure_defined_and_set_frame ((v.ensure_boolean "And").ensure_defined_and_set l) r out
    simp only [ingest_gate, Option.map_some', Option.some.injEq]
    exact count_after_undefined _ _ _ (hl3 (hl2 (hl1 ▸ h)))
      ((hc3.trans hc2).trans hc1)
  · obtain ⟨hl1, hc1⟩ := ensure_boolean_frame v "Xor" out
    obtain ⟨hl2, hc2⟩ := ensure_defined_and_set_frame (v.ensure_boolean "Xor") l out
    obtain ⟨hl3, hc3⟩ :=
      ensure_defined_and_set_frame ((v.ensure_boolean "Xor").ensure_defined_and_set l) r out
    simp only [ingest_gate, Option.map_some', Option.some.injEq]
    exact count_after_undefined _ _ _ (hl3 (hl2 (hl1 ▸ h)))
      ((hc3.trans hc2).trans hc1)
  · obtain ⟨hl1, hc1⟩ := ensure_boolean_frame v "Not" out
    obtain ⟨hl2, hc2⟩ := ensure_defined_and_set_frame (v.ensure_boolean "Not") l out
    simp only [ingest_gate, Option.map_some', Option.some.injEq]
    exact count_after_undefined _ _ _ (hl2 (hl1 ▸ h)) (hc2.trans hc1)
  · simp only [ingest_gate, Option.map_some', Option.some.injEq]
    split <;> simp [violate, declare, List.count_append]
  · simp only [ingest_gate, Option.map_some', Option.some.injEq]
    split <;> (try split_ifs) <;> simp [violate, declare, List.count_append]

/-- C2 (counterexample to the claim as stated): with wire `0` live, ingesting
an `Instance` gate whose output is wire `0` records *no* SSA violation (and in
fact no violation at all), contradicting "every gate kind that has an output
wire (including Instance and Witness gates) ... produces exactly one SSA
violation". -/
theorem c2_counterexample :
    0 ∈ ({ as_prover := true, instance_queue_len := 1,
           live_wires := {0} } : Validator).live_wires ∧
    ((Validator.ingest_gate
        { as_prover := true, instance_queue_len := 1, live_wires := {0} }
        (.Instance 0)).map
      (fun w => (w.violations.count (.ssa 0), w.violations.length)))
      = some (0, 0) := by
  constructor
  · decide
  · rfl

open Validator in
/-- C3: as prover, a gate reading (`AssertZero`) or freeing (`Free`) a wire
that was never declared appends exactly one violation naming that wire, and
the wire is then treated as declared so no duplicate diagnostics follow; in
particular `Free(1, Some(2))` then `Free(4, None)` over undeclared wires
yields exactly three violations, for wires 1, 2 and 4, in traversal order. -/
theorem c3_undeclared_single_violation :
    (∀ (v : Validator) (id : Nat), v.as_prover = true → id ∉ v.live_wires →
      v.ingest_gate (.AssertZero id)
        = some { v with live_wires := insert id v.live_wires,
                        violations := v.violations ++ [.usedNotAssigned id] }) ∧
    (∀ (v : Validator) (id : Nat), v.as_prover = true → id ∉ v.live_wires →
      v.ingest_gate (.Free id none)
        = some { v with violations := v.violations ++ [.usedNotAssigned id] }) ∧
    ((Validator.ingest_gates Validator.new_as_prover
        [.Free 1 (some 2), .Free 4 none]).map Validator.violations
      = some [.usedNotAssigned 1, .usedNotAssigned 2, .usedNotAssigned 4]) := by
  refine ⟨?_, ?_, ?_⟩
  · intro v id hp h
    simp [ingest_gate, ensure_defined_and_set, is_defined, h, hp, violate,
      declare]
  · intro v id hp h
    have hr : List.range' id (none.getD id + 1 - id) = [id] := by
      simp [List.range'_succ]
    simp only [ingest_gate, hr, free_loop, Option.some.injEq]
    simp [ensure_defined_and_set, is_defined, h, hp, violate, declare, remove,
      Finset.erase_insert h]
  · decide

/-- Witness for `c2_amended` at a concrete live wire. -/
theorem c2_amended_witness :
    ((Validator.ingest_gate ({ live_wires := {5} } : Validator)
        (.Add 5 0 1)).map (fun w => w.violations.count (.ssa 5)))
      = some ((({ live_wires := {5} } : Validator).violations.count (.ssa 5))
          + 1) :=
  (c2_amended { live_wires := {5} } 5 0 1 [1] (by decide)).2.2.1

/-- Witness for `c3_undeclared_single_violation` at a concrete input. -/
theorem c3_witness :
    Validator.ingest_gate ({ as_prover := true } : Validator) (.AssertZero 7)
      = some { ({ as_prover := true } : Validator) with
               live_wires :=
                 insert 7 (({ as_prover := true } : Validator).live_wires),
               violations :=
                 ({ as_prover := true } : Validator).violations
                   ++ [.usedNotAssigned 7] } :=
  c3_undeclared_single_violation.1 { as_prover := true } 7 rfl (by decide)

namespace Validator

lemma dot_lit_imp_any (s t : List Char) (h : dot_lit_step s = some t) :
    dot_any_step s = some t := by
  cases s with
  | nil => simp [dot_lit_step] at h
  | cons c cs =>
    by_cases hc : c = '.'
    · subst hc
      have h' : cs = t := by simpa [dot_lit_step] using h
      subst h'
      simp [dot_any_step, show ('.' : Char) ≠ '\n' by decide]
    · simp [dot_lit_step, hc] at h

end Validator

open Validator in
/-- C4 (amended): on the first header, the validator records a version-format
violation iff the trimmed version fails `^\d+.\d+.\d+$` with the dots
*unescaped* (each matching any single non-newline character), the literal
regex written in the source; every string of the spec's escaped form
`^\d+\.\d+\.\d+$` still passes. -/
theorem c4_amended :
    (∀ (p : Bool) (h : Header),
      Violation.badVersion
          ∈ (Validator.ingest_header { as_prover := p } h).violations
        ↔ version_regex_match (trimChars h.version.data) = false) ∧
    (∀ s : List Char,
      spec_version_match s = true → version_regex_match s = true) := by
  constructor
  · intro p h
    have hg : (Validator.ingest_header { as_prover := p } h)
        = header_check_version
            (header_check_profile
              (header_check_degree
                (header_check_characteristic { as_prover := p } h) h) h) h := by
      simp [ingest_header]
    have h3 : HeaderStep { as_prover := p } _ :=
      ((hstep_characteristic { as_prover := p } h).trans
        (hstep_degree (header_check_characteristic { as_prover := p } h) h)).trans
      (hstep_profile
        (header_check_degree
          (header_check_characteristic { as_prover := p } h) h) h)
    obtain ⟨-, -, -, -, l, e, -, c⟩ := h3
    obtain ⟨-, -, -, -, d5⟩ := header_check_version_spec
      (header_check_profile
        (header_check_degree
          (header_check_characteristic { as_prover := p } h) h) h) h
    rw [hg, d5, e]
    simp only [List.mem_append]
    constructor
    · rintro ((hm | hm) | hm)
      · simp at hm
      · exact absurd hm c
      · by_contra hr
        simp [Bool.not_eq_false] at hr
        simp [hr] at hm
    · intro hr
      right
      simp [hr]
  · intro s hs
    simp only [spec_version_match, List.any_eq_true] at hs
    obtain ⟨s1, hs1, h1⟩ := hs
    simp only [version_regex_match, List.any_eq_true]
    refine ⟨s1, hs1, ?_⟩
    cases hlit : dot_lit_step s1 with
    | none => rw [hlit] at h1; simp at h1
    | some s2 =>
      rw [hlit] at h1
      rw [dot_lit_imp_any _ _ hlit]
      simp only [List.any_eq_true] at h1 ⊢
      obtain ⟨s3, hs3, h3⟩ := h1
      refine ⟨s3, hs3, ?_⟩
      cases hlit2 : dot_lit_step s3 with
      | none => rw [hlit2] at h3; simp at h3
      | some s4 =>
        rw [hlit2] at h3
        rw [dot_lit_imp_any _ _ hlit2]
        exact h3

/-- C4 (counterexample to the claim as stated): the version string `"1a2b3"`
is not of the form `\d+\.\d+\.\d+`, yet the first header carrying it is
accepted with no violation at all, because the dots of `VERSION_REGEX` are
unescaped and match any character. -/
theorem c4_counterexample :
    (Validator.ingest_header { as_prover := true }
        { field_characteristic := [2], field_degree := 1,
          profile := "circ_boolean_simple", version := "1a2b3" }).violations
      = [] ∧
    ZkV.spec_version_match (ZkV.trimChars ("1a2b3").data) = false := by
  constructor
  · rfl
  · decide

/-- Witness for `c4_amended` (the hypothesis-bearing second part) at
`"1.2.3"`. -/
theorem c4_amended_witness :
    ZkV.spec_version_match ("1.2.3").data = true ∧
    ZkV.version_regex_match ("1.2.3").data = true :=
  ⟨by decide, c4_amended.2 ("1.2.3").data (by decide)⟩

open Validator in
/-- C5 (amended): `get_violations` appends one violation for a nonempty
surplus of unconsumed instance values (recording the surplus size, not one
entry per value), and — as prover — one violation for a nonempty surplus of
witness values; wires still live contribute nothing to the returned list. -/
theorem c5_amended (v : Validator) :
    v.get_violations = v.violations
      ++ (if 0 < v.instance_queue_len
          then [.tooManyInstance v.instance_queue_len] else [])
      ++ (if v.as_prover = true ∧ 0 < v.witness_queue_len
          then [.tooManyWitness v.witness_queue_len] else []) ∧
    (∀ s : Finset Nat,
      Validator.get_violations { v with live_wires := s }
        = v.get_violations) := by
  constructor
  · by_cases hi : 0 < v.instance_queue_len <;>
      by_cases hw : v.as_prover = true ∧ 0 < v.witness_queue_len <;>
        simp [get_violations, ensure_all_instance_values_consumed,
          ensure_all_witness_values_consumed, violate, hi, hw]
  · intro s
    by_cases hi : 0 < v.instance_queue_len <;>
      by_cases hw : v.as_prover = true ∧ 0 < v.witness_queue_len <;>
        simp [get_violations, ensure_all_instance_values_consumed,
          ensure_all_witness_values_consumed, violate, hi, hw]

/-- C5 (counterexample to the claim as stated): with two surplus unconsumed
instance values, `get_violations` returns a single violation (naming the
count 2), not one violation per unconsumed value. -/
theorem c5_counterexample :
    ({ instance_queue_len := 2 } : Validator).instance_queue_len = 2 ∧
    Validator.get_violations { instance_queue_len := 2 }
      = [.tooManyInstance 2] := by
  constructor
  · rfl
  · rfl

namespace Validator

lemma ensure_value_in_field_frame2 (v : Validator) (value : List Nat)
    (d : ValueDesc) :
    (v.ensure_value_in_field value d).as_prover = v.as_prover ∧
    (v.ensure_value_in_field value d).instance_queue_len
      = v.instance_queue_len ∧
    (v.ensure_value_in_field value d).witness_queue_len
      = v.witness_queue_len ∧
    (v.ensure_value_in_field value d).violations.count
        Violation.unexpectedWitnessMsg
      = v.violations.count Violation.unexpectedWitnessMsg := by
  unfold ensure_value_in_field
  refine ⟨?_, ?_, ?_, ?_⟩ <;> split_ifs <;>
    simp [violate, List.count_append, apply_ite Validator.as_prover,
      apply_ite Validator.instance_queue_len,
      apply_ite Validator.witness_queue_len, apply_ite Validator.violations,
      apply_ite (List.count Violation.unexpectedWitnessMsg)]

lemma fold_witness_values_frame (vals : List (List Nat)) (v : Validator) :
    ((vals.foldl
        (fun w value => w.ensure_value_in_field value (.witnessValue value))
        v).as_prover = v.as_prover) ∧
    ((vals.foldl
        (fun w value => w.ensure_value_in_field value (.witnessValue value))
        v).witness_queue_len = v.witness_queue_len) ∧
    ((vals.foldl
        (fun w value => w.ensure_value_in_field value (.witnessValue value))
        v).violations.count Violation.unexpectedWitnessMsg
      = v.violations.count Violation.unexpectedWitnessMsg) := by
  induction vals generalizing v with
  | nil => exact ⟨rfl, rfl, rfl⟩
  | cons a as ih =>
    obtain ⟨h1, h2, h3⟩ := ih (v.ensure_value_in_field a (.witnessValue a))
    obtain ⟨g1, -, g3, g4⟩ := ensure_value_in_field_frame2 v a (.witnessValue a)
    exact ⟨h1.trans g1, h2.trans g3, h3.trans g4⟩

end Validator

open Validator in
/-- C10: as verifier, witness bookkeeping never yields an unconsumed-witness
violation: a `Witness` message still range-checks and enqueues its values
while adding exactly one "unexpected Witness message" violation, a `Witness`
gate merely declares its output wire (touching neither the queue nor the
violation list), and finalization adds no witness-surplus violation. -/
theorem c10_verifier_witness_behavior (v : Validator) (w : Witness)
    (out : Nat) (h : v.as_prover = false) :
    ((v.ingest_witness w).witness_queue_len
      = v.witness_queue_len + w.short_witness.length) ∧
    ((v.ingest_witness w).violations.count Violation.unexpectedWitnessMsg
      = v.violations.count Violation.unexpectedWitnessMsg + 1) ∧
    (v.ingest_gate (.Witness out) = some (v.declare out)) ∧
    (v.get_violations = v.violations
      ++ (if 0 < v.instance_queue_len
          then [Violation.tooManyInstance v.instance_queue_len] else [])) := by
  have hstep := ingest_header_step (v.violate .unexpectedWitnessMsg) w.header
  obtain ⟨a1, a2, a3, a4, l, e, b⟩ := hstep
  obtain ⟨f1, f2, f3⟩ := fold_witness_values_frame w.short_witness
    ((v.violate .unexpectedWitnessMsg).ingest_header w.header)
  refine ⟨?_, ?_, ?_, ?_⟩
  · simp only [ingest_witness, h, Bool.not_false, if_true]
    rw [f2, a3]
    simp [violate]
  · simp only [ingest_witness, h, Bool.not_false, if_true]
    rw [f3, e]
    simp [violate, List.count_append, List.count_eq_zero.mpr b]
  · simp [ingest_gate, declare, h]
  · by_cases hi : 0 < v.instance_queue_len <;>
      simp [get_violations, ensure_all_instance_values_consumed,
        ensure_all_witness_values_consumed, violate, hi, h]

/-- Witness for `c10_verifier_witness_behavior` at a concrete verifier
state. -/
theorem c10_witness :
    (Validator.ingest_witness Validator.new_as_verifier
        { header := { field_characteristic := [2], field_degree := 1,
                      profile := "circ_boolean_simple", version := "1.0.0" },
          short_witness := [[1]] }).witness_queue_len
      = Validator.new_as_verifier.witness_queue_len + 1 :=
  (c10_verifier_witness_behavior Validator.new_as_verifier
      { header := { field_characteristic := [2], field_degree := 1,
                    profile := "circ_boolean_simple", version := "1.0.0" },
        short_witness := [[1]] } 0 rfl).1

end ZkV

namespace ZkG

abbrev FieldId := Nat
abbrev WireId := Nat

inductive WireListElement where
  | Wire (field : FieldId) (wire : WireId)
  | WireRange (field : FieldId) (first last : WireId)
deriving DecidableEq

abbrev WireList := List WireListElement

/-- `CountList` is a `HashMap<FieldId, u64>` in the source; it is only carried
through here, never inspected. -/
abbrev CountList := List (FieldId × Nat)

inductive IterExprWireNumber where
  | IterExprConst (val : Nat)
  | IterExprName (name : String)
deriving DecidableEq

inductive IterExprListElement where
  | Single (w : IterExprWireNumber)
  | Range (first last : IterExprWireNumber)
deriving DecidableEq

abbrev IterExprList := List IterExprListElement

mutual
/-- The gate variants of `structs/gates.rs` (the IR revision with field
ids). -/
inductive Gate where
  | Constant (field : FieldId) (out : WireId) (value : List Nat)
  | AssertZero (field : FieldId) (inp : WireId)
  | Copy (field : FieldId) (out inp : WireId)
  | Add (field : FieldId) (out left right : WireId)
  | Mul (field : FieldId) (out left right : WireId)
  | AddConstant (field : FieldId) (out inp : WireId) (value : List Nat)
  | MulConstant (field : FieldId) (out inp : WireId) (value : List Nat)
  | Instance (field : FieldId) (out : WireId)
  | Witness (field : FieldId) (out : WireId)
  | Free (field : FieldId) (first : WireId) (last : Option WireId)
  | Convert (outs inps : WireList)
  | AnonCall (outs inps : WireList)
      (instance_count witness_count : CountList) (subcircuit : List Gate)
  | Call (name : String) (outs inps : WireList)
  | For (iterator : String) (first last : Nat) (outs : WireList)
      (body : ForLoopBody)

inductive ForLoopBody where
  | IterExprCall (name : String) (field : FieldId) (outs inps : IterExprList)
  | IterExprAnonCall (field : FieldId) (outs inps : IterExprList)
      (instance_count witness_count : CountList) (subcircuit : List Gate)
end

/-- Modelled from the spec: `replace_wire_id` lives in `structs/wire.rs`
(not under `src/`); it rewrites one wire occurrence exactly when both the
field id and the wire id match the replaced output wire. -/
def replace_wire_id (field_id old_field_id : FieldId) (wire : WireId)
    (old new : WireId) : WireId :=
  if field_id = old_field_id ∧ wire = old then new else wire

/-- Modelled from the spec: `expand_wirelist` (`structs/wire.rs`, not under
`src/`) flattens a wire list, expanding each range into its inclusive list of
single wires. -/
def expand_wirelist (wl : WireList) : List (FieldId × WireId) :=
  wl.flatMap fun e =>
    match e with
    | .Wire f w => [(f, w)]
    | .WireRange f a b => (List.range' a (b + 1 - a)).map (fun w => (f, w))

/-- Modelled from the spec: `replace_wire_in_wirelist` (`structs/wire.rs`,
not under `src/`; behaviour pinned by `test_replace_output_wires`): replaces
the old wire by the new one, expanding into singletons any range that
contains the replaced wire. -/
def replace_wire_in_wirelist (wl : WireList) (old_field : FieldId)
    (old new : WireId) : WireList :=
  wl.flatMap fun e =>
    match e with
    | .Wire f w => [.Wire f (replace_wire_id f old_field w old new)]
    | .WireRange f a b =>
      if f = old_field ∧ a ≤ old ∧ old ≤ b then
        (List.range' a (b + 1 - a)).map
          (fun w => .Wire f (if w = old then new else w))
      else [.WireRange f a b]

def is_for_gate : Gate → Bool
  | .For _ _ _ _ _ => true
  | _ => false

def has_for_gate (gates : List Gate) : Bool := gates.any is_for_gate

/-- The For-branch of `replace_output_wires`: one trailing
`Copy(f, count(f), w)` per expanded output wire, with a per-field counter. -/
def trailing_copies (count : FieldId → WireId) :
    List (FieldId × WireId) → List Gate
  | [] => []
  | (f, w) :: rest =>
    .Copy f (count f) w ::
      trailing_copies (fun f' => if f' = f then count f + 1 else count f') rest

/-- One gate of the in-place rewriting pass of `replace_output_wires`;
errors replicate the `return Err(...)` on an output wire freed by a `Free`
gate and the `panic!` on the (unreachable there) `For` gate. -/
def replace_gate (old_field : FieldId) (old new : WireId) :
    Gate → Except String Gate
  | .Constant f out value =>
    .ok (.Constant f (replace_wire_id f old_field out old new) value)
  | .Copy f out inp =>
    .ok (.Copy f (replace_wire_id f old_field out old new)
      (replace_wire_id f old_field inp old new))
  | .Add f out l r =>
    .ok (.Add f (replace_wire_id f old_field out old new)
      (replace_wire_id f old_field l old new)
      (replace_wire_id f old_field r old new))
  | .Mul f out l r =>
    .ok (.Mul f (replace_wire_id f old_field out old new)
      (replace_wire_id f old_field l old new)
      (replace_wire_id f old_field r old new))
  | .AddConstant f out inp value =>
    .ok (.AddConstant f (replace_wire_id f old_field out old new)
      (replace_wire_id f old_field inp old new) value)
  | .MulConstant f out inp value =>
    .ok (.MulConstant f (replace_wire_id f old_field out old new)
      (replace_wire_id f old_field inp old new) value)
  | .Instance f out =>
    .ok (.Instance f (replace_wire_id f old_field out old new))
  | .Witness f out =>
    .ok (.Witness f (replace_wire_id f old_field out old new))
  | .AssertZero f wire =>
    .ok (.AssertZero f (replace_wire_id f old_field wire old new))
  | .Free f first (some last) =>
    if (first ≤ old ∧ last ≥ old) ∧ f = old_field
    then .error "It is forbidden to free an output wire !"
    else .ok (.Free f first (some last))
  | .Free f first none =>
    if first = old ∧ f = old_field
    then .error "It is forbidden to free an output wire !"
    else .ok (.Free f first none)
  | .Convert outs inps =>
    .ok (.Convert (replace_wire_in_wirelist outs old_field old new)
      (replace_wire_in_wirelist inps old_field old new))
  | .AnonCall outs inps ic wc sub =>
    .ok (.AnonCall (replace_wire_in_wirelist outs old_field old new)
      (replace_wire_in_wirelist inps old_field old new) ic wc sub)
  | .Call name outs inps =>
    .ok (.Call name (replace_wire_in_wirelist outs old_field old new)
      (replace_wire_in_wirelist inps old_field old new))
  | .For _ _ _ _ _ =>
    .error "Unreachable case in replace_output_wires method."

/-- One full pass over the body for one output wire; an `Err` from any gate
aborts the pass, as the `?` operator does in the source. -/
def replace_pass (old_field : FieldId) (old new : WireId) :
    List Gate → Except String (List Gate)
  | [] => .ok []
  | g :: gs =>
    match replace_gate old_field old new g with
    | .error e => .error e
    | .ok g' =>
      match replace_pass old_field old new gs with
      | .error e => .error e
      | .ok gs' => .ok (g' :: gs')

/-- The no-For branch of `replace_output_wires`: rewrite each expanded output
wire in turn, threading the per-field canonical-id counter. -/
def replace_all (count : FieldId → WireId) :
    List (FieldId × WireId) → List Gate → Except String (List Gate)
  | [], gates => .ok gates
  | (f, w) :: rest, gates =>
    match replace_pass f w (count f) gates with
    | .error e => .error e
    | .ok gates' =>
      replace_all (fun f' => if f' = f then count f + 1 else count f') rest
        gates'

/-- `replace_output_wires` (`structs/gates.rs`): if any gate of the body is a
`For` gate, append one trailing `Copy` per declared output wire and leave the
body untouched; otherwise rewrite every declared output wire in place
throughout the body. -/
def replace_output_wires (gates : List Gate) (output_wires : WireList) :
    Except String (List Gate) :=
  let expanded := expand_wirelist output_wires
  if has_for_gate gates then .ok (gates ++ trailing_copies (fun _ => 0) expanded)
  else replace_all (fun _ => 0) expanded gates

/-- The input body of the source's `test_replace_output_wires`. -/
def c1_test_gates : List Gate := [
  .Instance 0 4,
  .Witness 0 5,
  .Constant 0 6 [15],
  .Instance 1 6,
  .Add 0 7 4 5,
  .Free 0 4 (some 5),
  .Mul 0 8 6 7,
  .Call "custom" [.WireRange 0 9 12] [.WireRange 0 6 8],
  .AssertZero 0 12]

/-- The declared output wires of the source's `test_replace_output_wires`. -/
def c1_test_outputs : WireList := [.Wire 0 6, .WireRange 0 11 12, .Wire 0 15]

/-- The expected finished body of the source's `test_replace_output_wires`. -/
def c1_test_expected : List Gate := [
  .Instance 0 4,
  .Witness 0 5,
  .Constant 0 0 [15],
  .Instance 1 6,
  .Add 0 7 4 5,
  .Free 0 4 (some 5),
  .Mul 0 8 0 7,
  .Call "custom" [.Wire 0 9, .Wire 0 10, .Wire 0 1, .Wire 0 2]
    [.Wire 0 0, .Wire 0 7, .Wire 0 8],
  .AssertZero 0 2]

lemma trailing_copies_mem (expanded : List (FieldId × WireId)) :
    ∀ (count : FieldId → WireId), ∀ p ∈ expanded,
      ∃ n, Gate.Copy p.1 n p.2 ∈ trailing_copies count expanded := by
  induction expanded with
  | nil => intro count p hp; simp at hp
  | cons a rest ih =>
    intro count p hp
    obtain ⟨f, w⟩ := a
    rcases List.mem_cons.mp hp with h | h
    · subst h
      exact ⟨count f, List.mem_cons_self _ _⟩
    · obtain ⟨n, hn⟩ :=
        ih (fun f' => if f' = f then count f + 1 else count f') p h
      exact ⟨n, List.mem_cons_of_mem _ hn⟩

/-- C1 (amended): the trailing-`Copy` mode is triggered by the presence of a
`For` gate in the body, not by opaque ranges.  If the body contains a `For`
gate, it is returned unmutated with one trailing `Copy(f, canonical, old)`
per declared output wire.  Otherwise — as on the input of the source's own
`test_replace_output_wires`, whose declared output wire `(0,11)` lies inside
the output range of a nested `Call` — every declared output wire is rewritten
in place throughout the body, including inside `Call`/`Convert`/`AnonCall`
wire lists (a range containing the wire is expanded into singletons), and no
trailing `Copy` is emitted. -/
theorem c1_amended :
    (∀ (gates : List Gate) (outs : WireList), has_for_gate gates = true →
      ∃ r, replace_output_wires gates outs = .ok r ∧
        r.take gates.length = gates ∧
        ∀ p ∈ expand_wirelist outs,
          ∃ n, Gate.Copy p.1 n p.2 ∈ r.drop gates.length) ∧
    replace_output_wires c1_test_gates c1_test_outputs
      = .ok c1_test_expected := by
  constructor
  · intro gates outs hfor
    refine ⟨gates ++ trailing_copies (fun _ => 0) (expand_wirelist outs),
      ?_, ?_, ?_⟩
    · simp [replace_output_wires, hfor]
    · simp
    · intro p hp
      have h := trailing_copies_mem (expand_wirelist outs) (fun _ => 0) p hp
      simpa using h
  · rfl

/-- Witness for `c1_amended` (first part) at a concrete `For`-bearing body. -/
theorem c1_amended_witness :
    ∃ r, replace_output_wires
        [.For "i" 0 1 [] (.IterExprCall "f" 0 [] [])] [.Wire 0 3]
      = .ok r ∧
      r.take 1 = [.For "i" 0 1 [] (.IterExprCall "f" 0 [] [])] ∧
      ∀ p ∈ expand_wirelist [.Wire 0 3],
        ∃ n, Gate.Copy p.1 n p.2 ∈ r.drop 1 :=
  c1_amended.1 [.For "i" 0 1 [] (.IterExprCall "f" 0 [] [])] [.Wire 0 3] rfl

/-- C1 (counterexample to the claim as stated): on the source's own test
input the declared output wire `(0,11)` lies inside the opaque output range
`9..12` of the nested `Call`, yet the finished body contains *no* trailing
`Copy` to the canonical id `1` (indeed no gate was appended at all) and the
`Call`'s range was rewritten in place (expanded, with `11 ↦ 1` and
`12 ↦ 2`). -/
theorem c1_counterexample :
    replace_output_wires c1_test_gates c1_test_outputs
        = .ok c1_test_expected ∧
    c1_test_outputs = [.Wire 0 6, .WireRange 0 11 12, .Wire 0 15] ∧
    c1_test_gates[7]?
        = some (.Call "custom" [.WireRange 0 9 12] [.WireRange 0 6 8]) ∧
    c1_test_expected.length = c1_test_gates.length ∧
    (c1_test_expected.any fun g =>
      match g with
      | .Copy 0 1 11 => true
      | _ => false) = false ∧
    c1_test_expected[7]?
        = some (.Call "custom" [.Wire 0 9, .Wire 0 10, .Wire 0 1, .Wire 0 2]
            [.Wire 0 0, .Wire 0 7, .Wire 0 8]) :=
  ⟨rfl, rfl, rfl, rfl, rfl, rfl⟩

/-- Does this gate free the output wire `(old_field, old)` — the error
condition of the `Free` arm of `replace_output_wires`? -/
def frees_output (old_field : FieldId) (old : WireId) : Gate → Bool
  | .Free f first (some last) =>
    decide ((first ≤ old ∧ last ≥ old) ∧ f = old_field)
  | .Free f first none => decide (first = old ∧ f = old_field)
  | _ => false

lemma replace_gate_ok_spec (of : FieldId) (old new : WireId) (g g' : Gate)
    (h : replace_gate of old new g = .ok g') :
    (∀ p q, frees_output p q g' = frees_output p q g) ∧
    is_for_gate g' = false ∧ is_for_gate g = false ∧
    frees_output of old g = false := by
  cases g
  case For iter first last outs body => simp [replace_gate] at h
  case Free f first lastO =>
    cases lastO with
    | none =>
      simp only [replace_gate] at h
      split_ifs at h with hc
      simp only [Except.ok.injEq] at h
      subst h
      exact ⟨fun p q => rfl, rfl, rfl, by simp [frees_output, hc]⟩
    | some last =>
      simp only [replace_gate] at h
      split_ifs at h with hc
      simp only [Except.ok.injEq] at h
      subst h
      exact ⟨fun p q => rfl, rfl, rfl, by simp [frees_output, hc]⟩
  all_goals
    simp only [replace_gate, Except.ok.injEq] at h
  all_goals
    subst h
  all_goals
    exact ⟨fun p q => rfl, rfl, rfl, rfl⟩

lemma replace_pass_ok_spec (of : FieldId) (old new : WireId) :
    ∀ (gates gates' : List Gate),
      replace_pass of old new gates = .ok gates' →
      (∀ p q, gates'.any (frees_output p q) = gates.any (frees_output p q)) ∧
      gates.any (frees_output of old) = false := by
  intro gates
  induction gates with
  | nil =>
    intro gates' h
    simp only [replace_pass, Except.ok.injEq] at h
    subst h
    exact ⟨fun p q => rfl, rfl⟩
  | cons g gs ih =>
    intro gates' h
    simp only [replace_pass] at h
    cases hg : replace_gate of old new g with
    | error e => rw [hg] at h; simp at h
    | ok g' =>
      rw [hg] at h
      cases hgs : replace_pass of old new gs with
      | error e => rw [hgs] at h; simp at h
      | ok gs' =>
        rw [hgs] at h
        simp only [Except.ok.injEq] at h
        subst h
        obtain ⟨hf, -, -, ho⟩ := replace_gate_ok_spec of old new g g' hg
        obtain ⟨ihf, iho⟩ := ih gs' hgs
        constructor
        · intro p q
          simp [List.any_cons, hf p q, ihf p q]
        · simp [List.any_cons, ho, iho]

lemma replace_all_error_of_freed (expanded : List (FieldId × WireId)) :
    ∀ (count : FieldId → WireId) (gates : List Gate),
      expanded.any (fun p => gates.any (frees_output p.1 p.2)) = true →
      ∃ e, replace_all count expanded gates = .error e := by
  induction expanded with
  | nil => intro count gates h; simp at h
  | cons a rest ih =>
    intro count gates h
    obtain ⟨f, w⟩ := a
    cases hpass : replace_pass f w (count f) gates with
    | error e => exact ⟨e, by simp [replace_all, hpass]⟩
    | ok gates' =>
      obtain ⟨hpres, hnof⟩ := replace_pass_ok_spec f w (count f) gates
        gates' hpass
      have hfun : (fun p : FieldId × WireId =>
            gates'.any (frees_output p.1 p.2))
          = (fun p => gates.any (frees_output p.1 p.2)) :=
        funext fun p => hpres p.1 p.2
      have hrest : rest.any (fun p => gates'.any (frees_output p.1 p.2))
          = true := by
        simp only [List.any_cons, Bool.or_eq_true] at h
        rcases h with h | h
        · exact absurd h (by simp [hnof])
        · rw [hfun]
          exact h
      obtain ⟨e, he⟩ :=
        ih (fun f' => if f' = f then count f + 1 else count f') gates' hrest
      exact ⟨e, by simp [replace_all, hpass, he]⟩

/-- C9 (amended): when the body contains no `For` gate, output-wire
renumbering fails with an error whenever some declared output wire (matching
field id and wire id) lies in the inclusive range freed by a `Free` gate of
the body, so no finished body is produced; when the body contains a `For`
gate the `Free` check is skipped entirely (see the counterexample). -/
theorem c9_amended (gates : List Gate) (outs : WireList)
    (hof : has_for_gate gates = false)
    (hfree : (expand_wirelist outs).any
      (fun p => gates.any (frees_output p.1 p.2)) = true) :
    ∃ e, replace_output_wires gates outs = .error e := by
  obtain ⟨e, he⟩ :=
    replace_all_error_of_freed (expand_wirelist outs) (fun _ => 0) gates hfree
  exact ⟨e, by simp [replace_output_wires, hof, he]⟩

/-- Witness for `c9_amended` at a concrete body freeing its output wire. -/
theorem c9_witness :
    ∃ e, replace_output_wires [.Free 0 3 none] [.Wire 0 3] = .error e :=
  c9_amended [.Free 0 3 none] [.Wire 0 3] rfl (by decide)

/-- C9 (counterexample to the claim as stated): a body containing a `For`
gate and a `Free` gate freeing the declared output wire `(0,0)` is finished
*successfully* (with a trailing `Copy`), because the whole `Free` check is
bypassed as soon as any `For` gate is present. -/
theorem c9_counterexample :
    ([(.For "i" 10 12 [.WireRange 0 10 12] (.IterExprCall "f" 0 [] [])),
        .Free 0 0 none].any (frees_output 0 0)) = true ∧
    replace_output_wires
        [.For "i" 10 12 [.WireRange 0 10 12] (.IterExprCall "f" 0 [] []),
          .Free 0 0 none]
        [.Wire 0 0]
      = .ok [.For "i" 10 12 [.WireRange 0 10 12] (.IterExprCall "f" 0 [] []),
          .Free 0 0 none, .Copy 0 0 0] :=
  ⟨rfl, rfl⟩

end ZkG

namespace ZkE

abbrev WireId := Nat

/-- `CountList` of this IR revision; only carried through. -/
abbrev CountList := List (Nat × Nat)

mutual
/-- The gate variants of the IR revision `consumers/exp_definable.rs` belongs
to (no field ids; `Switch` and `For` structural gates present). -/
inductive Gate where
  | Constant (out : WireId) (value : List Nat)
  | AssertZero (inp : WireId)
  | Copy (out inp : WireId)
  | Add (out left right : WireId)
  | Mul (out left right : WireId)
  | AddConstant (out inp : WireId) (value : List Nat)
  | MulConstant (out inp : WireId) (value : List Nat)
  | And (out left right : WireId)
  | Xor (out left right : WireId)
  | Not (out inp : WireId)
  | Instance (out : WireId)
  | Witness (out : WireId)
  | Free (first : WireId) (last : Option WireId)
  | AnonCall (outs inps : List WireId)
      (instance_count witness_count : CountList) (subcircuit : List Gate)
  | Switch (cond : WireId) (outs : List WireId) (values : List (List Nat))
      (branches : List CaseInvoke)
  | For (iterator : String) (first last : Nat) (outs : List WireId)
      (body : ForLoopBody)

/-- Branches of a `Switch` (`structs/function.rs`, shapes as used by
`exp_definable.rs`). -/
inductive CaseInvoke where
  | AbstractGateCall (name : String) (inps : List WireId)
  | AbstractAnonCall (inps : List WireId)
      (instance_count witness_count : CountList) (body : List Gate)

/-- `For` bodies of this IR revision. -/
inductive ForLoopBody where
  | IterExprCall (name : String) (outs inps : List WireId)
  | IterExprAnonCall (outs inps : List WireId)
      (instance_count witness_count : CountList) (subcircuit : List Gate)
end

/-- The primitive-gate features of the `u16` gate mask. -/
inductive Feature where
  | ADD | ADDC | MUL | MULC | XOR | AND | NOT
deriving DecidableEq

/-- Modelled from the spec: the gate mask is a `u16` bitset whose constants
live in `structs/relation.rs` (not under `src/`); it is abstracted as one
flag per primitive-gate feature. -/
structure GateMask where
  hasADD : Bool
  hasADDC : Bool
  hasMUL : Bool
  hasMULC : Bool
  hasXOR : Bool
  hasAND : Bool
  hasNOT : Bool
deriving DecidableEq

/-- Modelled from the spec: `contains_feature` (`structs/relation.rs`, not
under `src/`) tests one feature bit of the mask. -/
def contains_feature (m : GateMask) : Feature → Bool
  | .ADD => m.hasADD
  | .ADDC => m.hasADDC
  | .MUL => m.hasMUL
  | .MULC => m.hasMULC
  | .XOR => m.hasXOR
  | .AND => m.hasAND
  | .NOT => m.hasNOT

/-- Modelled from the spec: the `SIMPLE` feature mask constant
(`structs/relation.rs`, not under `src/`); only carried through. -/
def SIMPLE : Nat := 0

/-- Modelled from the spec: `tmp_wire` (`consumers/flattening.rs`, not under
`src/`) hands out the next temporary wire id and advances the shared
counter. -/
def tmp_wire (c : Nat) : Nat × Nat := (c, c + 1)

mutual
/-- Rank used as termination measure: each disallowed-gate rewrite strictly
lowers it (`AddConstant → Add → Xor`, `MulConstant → Mul → And`,
`Not → Xor`), and nested bodies are smaller than their gate. -/
def gsize : Gate → Nat
  | .AddConstant _ _ _ => 3
  | .MulConstant _ _ _ => 3
  | .Not _ _ => 3
  | .Add _ _ _ => 2
  | .Mul _ _ _ => 2
  | .Xor _ _ _ => 1
  | .And _ _ _ => 1
  | .AnonCall _ _ _ _ sub => 1 + gsizeList sub
  | .Switch _ _ _ branches => 1 + csizeList branches
  | .For _ _ _ _ (.IterExprAnonCall _ _ _ _ sub) => 1 + gsizeList sub
  | .For _ _ _ _ (.IterExprCall _ _ _) => 1
  | _ => 1

def gsizeList : List Gate → Nat
  | [] => 0
  | g :: gs => 1 + gsize g + gsizeList gs

def csize : CaseInvoke → Nat
  | .AbstractGateCall _ _ => 1
  | .AbstractAnonCall _ _ _ body => 1 + gsizeList body

def csizeList : List CaseInvoke → Nat
  | [] => 0
  | b :: bs => 1 + csize b + csizeList bs
end

mutual
/-- `exp_definable_gate`: rewrites one gate (recursively, bottom-up through
nested bodies) into gates of the allowed mask.  The `&mut Vec` accumulator
and `Cell` counter of the source become the returned gate list and counter;
the two `panic!` sites become `Except.error`. -/
def exp_definable_gate (gate : Gate) (free_temporary_wire : Nat)
    (gate_mask : GateMask) : Except String (List Gate × Nat) :=
  match gate with
  | .AnonCall output_wires input_wires instance_count witness_count
      subcircuit =>
    match exp_definable_list subcircuit free_temporary_wire gate_mask with
    | .error e => .error e
    | .ok (new_subcircuit, c') =>
      .ok ([.AnonCall output_wires input_wires instance_count witness_count
        new_subcircuit], c')
  | .Switch wire_id output_wires values branches =>
    match exp_definable_branches branches free_temporary_wire gate_mask with
    | .error e => .error e
    | .ok (new_branches, c') =>
      .ok ([.Switch wire_id output_wires values new_branches], c')
  | .For name start_val end_val output_wires body =>
    match body with
    | .IterExprAnonCall outs inps instance_count witness_count subcircuit =>
      match exp_definable_list subcircuit free_temporary_wire gate_mask with
      | .error e => .error e
      | .ok (new_subcircuit, c') =>
        .ok ([.For name start_val end_val output_wires
          (.IterExprAnonCall outs inps instance_count witness_count
            new_subcircuit)], c')
    | .IterExprCall nm outs inps =>
      .ok ([.For name start_val end_val output_wires
        (.IterExprCall nm outs inps)], free_temporary_wire)
  | .Add wire_id_out wire_id1 wire_id2 =>
    if !contains_feature gate_mask .ADD then
      exp_definable_gate (.Xor wire_id_out wire_id1 wire_id2)
        free_temporary_wire gate_mask
    else .ok ([.Add wire_id_out wire_id1 wire_id2], free_temporary_wire)
  | .AddConstant wire_id_out wire_id cst =>
    if !contains_feature gate_mask .ADDC then
      let (tmp, c') := tmp_wire free_temporary_wire
      match exp_definable_gate (.Add wire_id_out wire_id tmp) c' gate_mask with
      | .error e => .error e
      | .ok (gs, c'') => .ok (.Constant tmp cst :: gs, c'')
    else .ok ([.AddConstant wire_id_out wire_id cst], free_temporary_wire)
  | .Mul wire_id_out wire_id1 wire_id2 =>
    if !contains_feature gate_mask .MUL then
      exp_definable_gate (.And wire_id_out wire_id1 wire_id2)
        free_temporary_wire gate_mask
    else .ok ([.Mul wire_id_out wire_id1 wire_id2], free_temporary_wire)
  | .MulConstant wire_id_out wire_id cst =>
    if !contains_feature gate_mask .MULC then
      let (tmp, c') := tmp_wire free_temporary_wire
      match exp_definable_gate (.Mul wire_id_out wire_id tmp) c' gate_mask with
      | .error e => .error e
      | .ok (gs, c'') => .ok (.Constant tmp cst :: gs, c'')
    else .ok ([.MulConstant wire_id_out wire_id cst], free_temporary_wire)
  | .And wire_id_out wire_id1 wire_id2 =>
    if !contains_feature gate_mask .AND then
      if contains_feature gate_mask .MUL then
        .ok ([.Mul wire_id_out wire_id1 wire_id2], free_temporary_wire)
      else
        .error "You are trying to eliminate an AND gate, but I don't know how to do that without a MUL gate"
    else .ok ([.And wire_id_out wire_id1 wire_id2], free_temporary_wire)
  | .Xor wire_id_out wire_id1 wire_id2 =>
    if !contains_feature gate_mask .XOR then
      if contains_feature gate_mask .ADD then
        .ok ([.Add wire_id_out wire_id1 wire_id2], free_temporary_wire)
      else
        .error "You are trying to eliminate a XOR gate, but I don't know how to do that without an ADD gate"
    else .ok ([.Xor wire_id_out wire_id1 wire_id2], free_temporary_wire)
  | .Not wire_id_out wire_id =>
    if !contains_feature gate_mask .NOT then
      let (tmp, c') := tmp_wire free_temporary_wire
      match exp_definable_gate (.Xor wire_id_out wire_id tmp) c' gate_mask with
      | .error e => .error e
      | .ok (gs, c'') => .ok (.Constant tmp [1, 0, 0, 0] :: gs, c'')
    else .ok ([.Not wire_id_out wire_id], free_temporary_wire)
  | g => .ok ([g], free_temporary_wire)
termination_by gsize gate
decreasing_by all_goals (simp [gsize, gsizeList, csize, csizeList]; try omega)

/-- The flattening loop over a gate sequence. -/
def exp_definable_list (gates : List Gate) (free_temporary_wire : Nat)
    (gate_mask : GateMask) : Except String (List Gate × Nat) :=
  match gates with
  | [] => .ok ([], free_temporary_wire)
  | g :: gs =>
    match exp_definable_gate g free_temporary_wire gate_mask with
    | .error e => .error e
    | .ok (out1, c') =>
      match exp_definable_list gs c' gate_mask with
      | .error e => .error e
      | .ok (out2, c'') => .ok (out1 ++ out2, c'')
termination_by gsizeList gates
decreasing_by all_goals (simp [gsize, gsizeList, csize, csizeList]; try omega)

/-- The loop over the branches of a `Switch`. -/
def exp_definable_branches (branches : List CaseInvoke)
    (free_temporary_wire : Nat) (gate_mask : GateMask) :
    Except String (List CaseInvoke × Nat) :=
  match branches with
  | [] => .ok ([], free_temporary_wire)
  | .AbstractAnonCall input_wires instance_count witness_count body
      :: rest =>
    match exp_definable_list body free_temporary_wire gate_mask with
    | .error e => .error e
    | .ok (new_body, c') =>
      match exp_definable_branches rest c' gate_mask with
      | .error e => .error e
      | .ok (new_rest, c'') =>
        .ok (.AbstractAnonCall input_wires instance_count witness_count
          new_body :: new_rest, c'')
  | a :: rest =>
    match exp_definable_branches rest free_temporary_wire gate_mask with
    | .error e => .error e
    | .ok (new_rest, c') => .ok (a :: new_rest, c')
termination_by csizeList branches
decreasing_by all_goals (simp [gsize, gsizeList, csize, csizeList]; try omega)
end

lemma exp_definable_list_append (l1 l2 : List Gate) (c : Nat) (m : GateMask) :
    exp_definable_list (l1 ++ l2) c m
      = match exp_definable_list l1 c m with
        | .error e => .error e
        | .ok (o1, c') =>
          match exp_definable_list l2 c' m with
          | .error e => .error e
          | .ok (o2, c'') => .ok (o1 ++ o2, c'') := by
  induction l1 generalizing c with
  | nil =>
    simp only [List.nil_append, exp_definable_list]
    cases h : exp_definable_list l2 c m with
    | error e => simp
    | ok p => cases p; simp
  | cons g gs ih =>
    simp only [List.cons_append, exp_definable_list]
    cases hg : exp_definable_gate g c m with
    | error e => simp
    | ok p =>
      obtain ⟨o1, c'⟩ := p
      simp only []
      rw [ih c']
      cases hgs : exp_definable_list gs c' m with
      | error e => simp [hgs]
      | ok q =>
        obtain ⟨o2, c''⟩ := q
        simp only [hgs]
        cases hl2 : exp_definable_list l2 c'' m with
        | error e => simp [hl2]
        | ok r =>
          obtain ⟨o3, c3⟩ := r
          simp [hl2, List.append_assoc]


/-- Re-reducing an already-reduced gate sequence against the same mask is the
identity, for any starting temporary-wire counter. -/
theorem exp_definable_list_idem (l : List Gate) (c : Nat) (m : GateMask) :
    ∀ gs c', exp_definable_list l c m = .ok (gs, c') →
      ∀ c₂, exp_definable_list gs c₂ m = .ok (gs, c₂) := by
  induction l, c, m using exp_definable_list.induct
  case motive1 g c m =>
    exact ∀ gs c', exp_definable_gate g c m = .ok (gs, c') →
      ∀ c₂, exp_definable_list gs c₂ m = .ok (gs, c₂)
  case motive2 bs c m =>
    exact ∀ bs' c', exp_definable_branches bs c m = .ok (bs', c') →
      ∀ c₂, exp_definable_branches bs' c₂ m = .ok (bs', c₂)
  all_goals intro gs c' h c₂
  all_goals try simp_all [exp_definable_gate, exp_definable_list,
    exp_definable_branches, exp_definable_list_append, tmp_wire]
  all_goals try (obtain ⟨h1, h2⟩ := h; subst h1; try subst h2)
  all_goals try simp_all [exp_definable_gate, exp_definable_list,
    exp_definable_branches, exp_definable_list_append, tmp_wire]
  all_goals try (split at h <;>
    simp_all [exp_definable_gate, exp_definable_list,
      exp_definable_branches, exp_definable_list_append, tmp_wire])
  all_goals try (obtain ⟨h1, h2⟩ := h; subst h1; try subst h2)
  all_goals casesm* _ ∧ _
  all_goals subst_eqs
  all_goals try simp_all [exp_definable_gate, exp_definable_list,
    exp_definable_branches, exp_definable_list_append, tmp_wire]

/-- The `Relation` of this IR revision, as read and rebuilt by
`exp_definable_from`.  The function table entries are irrelevant to the
rewriting (it always emits an empty table), so only their names are kept. -/
structure Relation where
  header : ZkV.Header
  gate_mask : GateMask
  feat_mask : Nat
  functions : List String
  gates : List Gate

/-- `exp_definable_from`: the two characteristic-2 precondition `panic!`s
become `Except.error`; otherwise rewrite the gate list and rebuild the
relation with the same header, the requested mask, the `SIMPLE` feature set
and an empty function table. -/
def exp_definable_from (relation : Relation) (gate_mask : GateMask)
    (tmp_wire_start : Nat) : Except String (Relation × Nat) :=
  let is_two : Bool :=
    decide (ZkV.from_bytes_le relation.header.field_characteristic = 2)
  if (contains_feature relation.gate_mask .XOR
      || contains_feature relation.gate_mask .AND
      || contains_feature relation.gate_mask .NOT) && !is_two then
    .error "The input relation allows XOR or AND for a field of characteristic > 2"
  else if (contains_feature gate_mask .XOR
      || contains_feature gate_mask .AND
      || contains_feature gate_mask .NOT) && !is_two then
    .error "You are trying to use XOR or AND for a field of characteristic > 2"
  else
    match exp_definable_list relation.gates tmp_wire_start gate_mask with
    | .error e => .error e
    | .ok (gates, c') =>
      .ok ({ header := relation.header, gate_mask := gate_mask,
             feat_mask := SIMPLE, functions := [], gates := gates }, c')

/-- C6: rewriting an `And` gate when `And` is excluded from the mask: if
`Mul` is allowed, exactly one `Mul` gate with the same output and input wires
is emitted and the counter is untouched (no recursion); if `Mul` is also
excluded, the engine aborts fatally and emits nothing. -/
theorem c6_and_elimination (out a b : Nat) (c : Nat) (m : GateMask)
    (h : contains_feature m .AND = false) :
    (contains_feature m .MUL = true →
      exp_definable_gate (.And out a b) c m = .ok ([.Mul out a b], c)) ∧
    (contains_feature m .MUL = false →
      exp_definable_gate (.And out a b) c m
        = .error "You are trying to eliminate an AND gate, but I don't know how to do that without a MUL gate") := by
  constructor <;> intro hm <;> simp [exp_definable_gate, h, hm]

/-- Witness for `c6_and_elimination` at a concrete mask allowing only
`Mul`. -/
theorem c6_witness :
    exp_definable_gate (.And 2 0 1) 10
        ⟨false, false, true, false, false, false, false⟩
      = .ok ([.Mul 2 0 1], 10) :=
  (c6_and_elimination 2 0 1 10
    ⟨false, false, true, false, false, false, false⟩ rfl).1 rfl

/-- C7: the gate-set reduction is idempotent: if `exp_definable_from`
succeeds on a relation, running it again on the output relation with the
same mask and any starting counter returns that relation unchanged —
structurally identical gates (nested bodies included), no new temporaries,
and the counter handed straight back. -/
theorem c7_reduction_idempotent (r : Relation) (m : GateMask)
    (c c₂ : Nat) (r₁ : Relation) (c₁ : Nat)
    (h : exp_definable_from r m c = .ok (r₁, c₁)) :
    exp_definable_from r₁ m c₂ = .ok (r₁, c₂) := by
  unfold exp_definable_from at h ⊢
  dsimp only at h ⊢
  split_ifs at h with h1 h2
  cases hl : exp_definable_list r.gates c m with
  | error e => rw [hl] at h; exact absurd h (by simp)
  | ok p =>
    obtain ⟨gs, cg⟩ := p
    rw [hl] at h
    simp only [Except.ok.injEq, Prod.mk.injEq] at h
    obtain ⟨hr, hc⟩ := h
    subst hr
    have hidem := exp_definable_list_idem r.gates c m gs cg hl c₂
    simp only []
    rw [if_neg (by simpa using h2), if_neg (by simpa using h2), hidem]

/-- Witness for `c7_reduction_idempotent` at a concrete boolean relation. -/
theorem c7_witness :
    exp_definable_from
        { header := { field_characteristic := [2], field_degree := 1,
                      profile := "circ_boolean_simple", version := "1.0.0" },
          gate_mask := ⟨false, false, false, false, true, true, true⟩,
          feat_mask := SIMPLE, functions := [],
          gates := [.Xor 2 0 1, .Not 3 2] }
        ⟨false, false, false, false, true, true, true⟩ 7
      = .ok ({ header := { field_characteristic := [2], field_degree := 1,
                           profile := "circ_boolean_simple",
                           version := "1.0.0" },
               gate_mask := ⟨false, false, false, false, true, true, true⟩,
               feat_mask := SIMPLE, functions := [],
               gates := [.Xor 2 0 1, .Not 3 2] }, 7) :=
  c7_reduction_idempotent
    { header := { field_characteristic := [2], field_degree := 1,
                  profile := "circ_boolean_simple", version := "1.0.0" },
      gate_mask := ⟨false, false, false, false, true, true, true⟩,
      feat_mask := SIMPLE, functions := [],
      gates := [.Xor 2 0 1, .Not 3 2] }
    ⟨false, false, false, false, true, true, true⟩ 5 7
    { header := { field_characteristic := [2], field_degree := 1,
                  profile := "circ_boolean_simple", version := "1.0.0" },
      gate_mask := ⟨false, false, false, false, true, true, true⟩,
      feat_mask := SIMPLE, functions := [],
      gates := [.Xor 2 0 1, .Not 3 2] }
    5 (by simp [exp_definable_from, exp_definable_list, exp_definable_gate,
          contains_feature, SIMPLE, ZkV.from_bytes_le])


mutual
/-- Every wire id occurring in a gate (nested bodies included). -/
def gate_wires : Gate → List Nat
  | .Constant out _ => [out]
  | .AssertZero inp => [inp]
  | .Copy out inp => [out, inp]
  | .Add out l r => [out, l, r]
  | .Mul out l r => [out, l, r]
  | .AddConstant out inp _ => [out, inp]
  | .MulConstant out inp _ => [out, inp]
  | .And out l r => [out, l, r]
  | .Xor out l r => [out, l, r]
  | .Not out inp => [out, inp]
  | .Instance out => [out]
  | .Witness out => [out]
  | .Free first lastO => first :: lastO.toList
  | .AnonCall outs inps _ _ sub => outs ++ inps ++ wires_list sub
  | .Switch w outs _ branches => w :: (outs ++ wires_branches branches)
  | .For _ _ _ outs (.IterExprCall _ bouts binps) => outs ++ bouts ++ binps
  | .For _ _ _ outs (.IterExprAnonCall bouts binps _ _ sub) =>
    outs ++ bouts ++ binps ++ wires_list sub

def wires_list : List Gate → List Nat
  | [] => []
  | g :: gs => gate_wires g ++ wires_list gs

def case_wires : CaseInvoke → List Nat
  | .AbstractGateCall _ inps => inps
  | .AbstractAnonCall inps _ _ body => inps ++ wires_list body

def wires_branches : List CaseInvoke → List Nat
  | [] => []
  | b :: bs => case_wires b ++ wires_branches bs
end

lemma wires_list_append (l1 l2 : List Gate) :
    wires_list (l1 ++ l2) = wires_list l1 ++ wires_list l2 := by
  induction l1 with
  | nil => simp [wires_list]
  | cons g gs ih => simp [wires_list, ih]


/-- Counter monotonicity and freshness: a successful rewrite advances the
counter, and every wire of the output either already occurred in the input
or is a temporary in `[c, c')`. -/
theorem exp_definable_list_fresh (l : List Gate) (c : Nat) (m : GateMask) :
    ∀ gs c', exp_definable_list l c m = .ok (gs, c') →
      c ≤ c' ∧ ∀ w ∈ wires_list gs, w ∈ wires_list l ∨ (c ≤ w ∧ w < c') := by
  induction l, c, m using exp_definable_list.induct
  case motive1 g c m =>
    exact ∀ gs c', exp_definable_gate g c m = .ok (gs, c') →
      c ≤ c' ∧ ∀ w ∈ wires_list gs, w ∈ gate_wires g ∨ (c ≤ w ∧ w < c')
  case motive2 bs c m =>
    exact ∀ bs' c', exp_definable_branches bs c m = .ok (bs', c') →
      c ≤ c' ∧ ∀ w ∈ wires_branches bs', w ∈ wires_branches bs ∨ (c ≤ w ∧ w < c')
  all_goals intro gs c' h
  all_goals try simp_all [exp_definable_gate, exp_definable_list,
    exp_definable_branches, tmp_wire, wires_list, gate_wires, case_wires,
    wires_branches, wires_list_append]
  all_goals try (split at h <;>
    simp_all [exp_definable_gate, exp_definable_list, exp_definable_branches,
      tmp_wire, wires_list, gate_wires, case_wires, wires_branches,
      wires_list_append])
  all_goals casesm* _ ∧ _
  all_goals subst_eqs
  all_goals try simp_all [exp_definable_gate, exp_definable_list,
    exp_definable_branches, tmp_wire, wires_list, gate_wires, case_wires,
    wires_branches, wires_list_append]
  -- AnonCall
  · rename_i hx hle hmem
    intro w hw
    rcases hw with h | h | h
    · tauto
    · tauto
    · rcases hmem w h with u | u
      · tauto
      · tauto
  -- Switch
  · rename_i hx hle hmem
    intro w hw
    rcases hw with h | h
    · tauto
    · rcases hmem w h with u | u
      · tauto
      · tauto
  -- For, anonymous body
  · rename_i hx hle hmem
    intro w hw
    rcases hw with h | h | h | h
    · tauto
    · tauto
    · tauto
    · rcases hmem w h with u | u
      · tauto
      · tauto
  -- AddConstant with materialized temporary
  · rename_i heq hle hx hmem
    refine ⟨by omega, Or.inr (by omega), ?_⟩
    intro a ha
    rcases hmem a ha with (u | u | u) | u
    · tauto
    · tauto
    · right; omega
    · right; omega
  -- MulConstant with materialized temporary
  · rename_i heq hle hx hmem
    refine ⟨by omega, Or.inr (by omega), ?_⟩
    intro a ha
    rcases hmem a ha with (u | u | u) | u
    · tauto
    · tauto
    · right; omega
    · right; omega
  -- Not with materialized temporary
  · rename_i heq hle hx hmem
    refine ⟨by omega, Or.inr (by omega), ?_⟩
    intro a ha
    rcases hmem a ha with (u | u | u) | u
    · tauto
    · tauto
    · right; omega
    · right; omega
  -- branch cons, anonymous branch
  · rename_i hle1 hmem1 hx hle2 hmem2
    refine ⟨by omega, ?_⟩
    intro w hw
    rcases hw with h | h | h
    · tauto
    · rcases hmem1 w h with u | u
      · tauto
      · right; omega
    · rcases hmem2 w h with u | u
      · tauto
      · right; omega
  -- branch cons, named branch
  · rename_i hx hle hmem
    intro w hw
    rcases hw with h | h
    · tauto
    · rcases hmem w h with u | u
      · tauto
      · tauto
  -- gate-list cons
  · rename_i hle1 hmem1 hx hle2 hmem2
    refine ⟨by omega, ?_⟩
    intro w hw
    rcases hw with h | h
    · rcases hmem1 w h with u | u
      · tauto
      · right; omega
    · rcases hmem2 w h with u | u
      · tauto
      · right; omega

/-- C8: whenever `exp_definable_from` returns normally, the result relation
keeps the input relation's header and has an empty function table, and the
returned counter is advanced past every temporary allocated during
rewriting: every wire of the output gates is either a wire of the input
gates or lies in `[tmp_wire_start, result counter)`. -/
theorem c8_from_frame (r : Relation) (m : GateMask) (c : Nat)
    (r' : Relation) (c' : Nat)
    (h : exp_definable_from r m c = .ok (r', c')) :
    r'.header = r.header ∧ r'.functions = [] ∧ c ≤ c' ∧
    ∀ w ∈ wires_list r'.gates,
      w ∈ wires_list r.gates ∨ (c ≤ w ∧ w < c') := by
  unfold exp_definable_from at h
  dsimp only at h
  split_ifs at h with h1 h2
  cases hl : exp_definable_list r.gates c m with
  | error e => rw [hl] at h; exact absurd h (by simp)
  | ok p =>
    obtain ⟨gs, cg⟩ := p
    rw [hl] at h
    simp only [Except.ok.injEq, Prod.mk.injEq] at h
    obtain ⟨hr, hc⟩ := h
    subst hr
    subst hc
    obtain ⟨hle, hmem⟩ := exp_definable_list_fresh r.gates c m gs cg hl
    exact ⟨rfl, rfl, hle, hmem⟩

/-- Witness for `c8_from_frame` at a concrete rewrite that allocates one
temporary wire. -/
theorem c8_witness :
    ({ header := { field_characteristic := [5], field_degree := 1,
                   profile := "circ_arithmetic_simple", version := "1.0.0" },
       gate_mask := ⟨true, false, true, true, false, false, false⟩,
       feat_mask := SIMPLE, functions := [],
       gates := [.Constant 10 [7], .Add 1 0 10] } : Relation).header
        = ({ header := { field_characteristic := [5], field_degree := 1,
                         profile := "circ_arithmetic_simple",
                         version := "1.0.0" },
             gate_mask := ⟨true, true, true, true, false, false, false⟩,
             feat_mask := SIMPLE, functions := [],
             gates := [.AddConstant 1 0 [7]] } : Relation).header ∧
    ({ header := { field_characteristic := [5], field_degree := 1,
                   profile := "circ_arithmetic_simple", version := "1.0.0" },
       gate_mask := ⟨true, false, true, true, false, false, false⟩,
       feat_mask := SIMPLE, functions := [],
       gates := [.Constant 10 [7], .Add 1 0 10] } : Relation).functions
        = [] ∧
    10 ≤ 11 ∧
    ∀ w ∈ wires_list
        ({ header := { field_characteristic := [5], field_degree := 1,
                       profile := "circ_arithmetic_simple",
                       version := "1.0.0" },
           gate_mask := ⟨true, false, true, true, false, false, false⟩,
           feat_mask := SIMPLE, functions := [],
           gates := [.Constant 10 [7], .Add 1 0 10] } : Relation).gates,
      w ∈ wires_list
          ({ header := { field_characteristic := [5], field_degree := 1,
                         profile := "circ_arithmetic_simple",
                         version := "1.0.0" },
             gate_mask := ⟨true, true, true, true, false, false, false⟩,
             feat_mask := SIMPLE, functions := [],
             gates := [.AddConstant 1 0 [7]] } : Relation).gates
        ∨ (10 ≤ w ∧ w < 11) :=
  c8_from_frame
    { header := { field_characteristic := [5], field_degree := 1,
                  profile := "circ_arithmetic_simple", version := "1.0.0" },
      gate_mask := ⟨true, true, true, true, false, false, false⟩,
      feat_mask := SIMPLE, functions := [],
      gates := [.AddConstant 1 0 [7]] }
    ⟨true, false, true, true, false, false, false⟩ 10
    { header := { field_characteristic := [5], field_degree := 1,
                  profile := "circ_arithmetic_simple", version := "1.0.0" },
      gate_mask := ⟨true, false, true, true, false, false, false⟩,
      feat_mask := SIMPLE, functions := [],
      gates := [.Constant 10 [7], .Add 1 0 10] }
    11
    (by simp [exp_definable_from, exp_definable_list, exp_definable_gate,
      contains_feature, SIMPLE, ZkV.from_bytes_le, tmp_wire])

end ZkE
